import Mathlib

/-!
# Verification of the Antigravity-PlaywrightScraper crawl core

This file gives a shallow embedding, in Lean 4, of the crawl-orchestration
core of the Antigravity-PlaywrightScraper repository (TypeScript/Playwright):
the `Utils` filename/domain helpers (`src/utils.ts`), the URL classification
and scope filtering, the resumable run-state (report) handling, and the
per-item processing state machine of `Crawler` (the evolved `crawler.ts`,
which carries `blocked_hosts`, the binary-download sub-path and the
content-type PDF reclassification; an older copy of the class without those
features also exists in the repository).

External collaborators (the Playwright renderer, the filesystem, the `tldts`
domain parser) are modelled as explicit oracles/parameters, exactly at the
interface the core consumes.  Machine-level effects (actual I/O) are made
explicit state: report writes append the serialized summary to a `flushes`
history, content-file writes update a `files` association list.
-/

/-! ## String helpers (JS primitives used by the source) -/

/-- Tests whether `p` occurs as a contiguous sublist of `t`.
Models JavaScript `String.includes` (which is `true` for the empty pattern). -/
def subOf (p : List Char) : List Char → Bool
  | [] => p.isEmpty
  | c :: rest => p.isPrefixOf (c :: rest) || subOf p rest

/-- Models JavaScript `s.includes(sub)`. -/
def hasSubstr (s sub : String) : Bool :=
  subOf sub.toList s.toList

/-- JavaScript `s.split('#')[0]`: the part of the string before the first `#`.
Used by the crawler to strip fragment identifiers from discovered links. -/
def cleanFragment (s : String) : String :=
  ⟨s.toList.takeWhile (· ≠ '#')⟩

/-- Models the non-global regex replace `url.replace(/https?:\/\//, '')` from
`Utils.sanitizeFilename`'s fallback branch: removes the first occurrence of
`https://` (preferred, as the regex `s?` is greedy) or `http://`. -/
def stripScheme (cs : List Char) : List Char :=
  match cs with
  | [] => []
  | c :: rest =>
    if ("https://".toList).isPrefixOf (c :: rest) then (c :: rest).drop 8
    else if ("http://".toList).isPrefixOf (c :: rest) then (c :: rest).drop 7
    else c :: stripScheme rest

/-! ## URL parsing

The source calls the WHATWG `new URL(...)` parser (throwing on invalid
input) and reads `.hostname` and `.pathname`.  We model it for the common
`scheme://host[:port]/path[?query][#fragment]` shape used throughout the
crawler; a string without `://` or with an empty host fails to parse
(`none`), matching the thrown `TypeError` that the source catches. -/

/-- The remainder of the character list after the first `://`, if any. -/
def afterSchemeSep : List Char → Option (List Char)
  | [] => none
  | ':' :: '/' :: '/' :: rest => some rest
  | _ :: rest => afterSchemeSep rest

/-- Models `new URL(url)` restricted to the fields the crawler reads:
returns `(hostname, pathname)`, where `hostname` excludes any `:port`
suffix and `pathname` excludes query and fragment (and is `/` when the
URL has no path), or `none` when parsing fails. -/
def parseUrl (url : String) : Option (String × String) :=
  match afterSchemeSep url.toList with
  | none => none
  | some rest =>
    let hostPort := rest.takeWhile (fun c => c ≠ '/' && c ≠ '?' && c ≠ '#')
    let afterHost := rest.dropWhile (fun c => c ≠ '/' && c ≠ '?' && c ≠ '#')
    let hostname := hostPort.takeWhile (· ≠ ':')
    let pathname := afterHost.takeWhile (fun c => c ≠ '?' && c ≠ '#')
    let pathname := if pathname.isEmpty then ['/'] else pathname
    if hostname.isEmpty then none else some (⟨hostname⟩, ⟨pathname⟩)

/-- Reads `new URL(url).hostname`, as an `Option` (none = the constructor throws). -/
def urlHostname (url : String) : Option String :=
  (parseUrl url).map (·.1)

/-- Reads `new URL(url).pathname`, as an `Option` (none = the constructor throws). -/
def urlPathname (url : String) : Option String :=
  (parseUrl url).map (·.2)

/-! ## `Utils.sanitizeFilename` (src/utils.ts, lines 33–59) -/

/-- Models the global regex replace of one-or-more hyphens by a single
hyphen: collapses each run of consecutive hyphens. -/
def squeezeDashes : List Char → List Char
  | [] => []
  | [c] => [c]
  | a :: b :: rest =>
    if a = '-' && b = '-' then squeezeDashes (b :: rest)
    else a :: squeezeDashes (b :: rest)

/-- Models `Utils.sanitizeFilename(url)`: on a parsable URL, takes the pathname,
strips leading/trailing slashes (empty → `index`), turns slashes into
hyphens, turns every character outside `[a-zA-Z0-9-_]` into a hyphen,
collapses hyphen runs and truncates to 200 characters; on an unparsable
URL, strips a `http(s)://` occurrence, maps every character outside
`[a-zA-Z0-9.\-_]` to `_` and truncates to 200. -/
def sanitizeFilename (url : String) : String :=
  match parseUrl url with
  | some (_, pathname) =>
    let p := pathname.toList
    let p := (((p.dropWhile (· = '/')).reverse.dropWhile (· = '/')).reverse)
    let p := if p.isEmpty then "index".toList else p
    let p := p.map (fun c => if c = '/' then '-' else c)
    let p := p.map (fun c => if c.isAlphanum || c = '-' || c = '_' then c else '-')
    let p := squeezeDashes p
    ⟨p.take 200⟩
  | none =>
    let stripped := stripScheme url.toList
    let cleaned := stripped.map
      (fun c => if c.isAlphanum || c = '.' || c = '-' || c = '_' then c else '_')
    ⟨cleaned.take 200⟩

example : sanitizeFilename "https://example.com/" = "index" := by decide
example : sanitizeFilename "https://example.com/doc.pdf" = "doc-pdf" := by decide
example : sanitizeFilename "https://example.com/a/b" = "a-b" := by decide
example : sanitizeFilename "https://example.com/a-b" = "a-b" := by decide
example : sanitizeFilename "https://a.com/x" = "x" := by decide
example : sanitizeFilename "https://b.com/x" = "x" := by decide
example : sanitizeFilename "not a url" = "not_a_url" := by decide

/-! ## Data model: configuration and the persisted report -/

/-- The `run_mode` field of the configuration (`'dry_run' | 'full_run'`). -/
inductive RunMode
  | dry_run
  | full_run
deriving DecidableEq, Repr

/-- Models `CrawlerConfig` (crawler.ts): the configuration surface the crawl core
consumes.  `browser_config` only parameterizes the external renderer and is
omitted from the embedding. -/
structure CrawlerConfig where
  start_url : String
  max_depth : Nat
  file_types : List String
  blocked_paths : List String
  blocked_hosts : List String
  allowed_external_domains : List String
  run_mode : RunMode
  resume_from : Option String
deriving DecidableEq, Repr

/-- The `scraping_info` object of `ScrapingSummary` (src/utils.ts). -/
structure ScrapingInfo where
  base_url : String
  scraped_at : String
  total_discovered : Nat
  successfully_scraped : Nat
  failed_urls : Nat
  failed_url_list : List String
deriving DecidableEq, Repr

/-- Models `ScrapingSummary` (src/utils.ts): the persisted report document. -/
structure ScrapingSummary where
  scraping_info : ScrapingInfo
  scraped_urls : List String
deriving DecidableEq, Repr

/-- Coherence of a report snapshot: each counter equals the length of its
corresponding list (`total_discovered` has no corresponding list). -/
def coherent (s : ScrapingSummary) : Prop :=
  s.scraping_info.successfully_scraped = s.scraped_urls.length ∧
  s.scraping_info.failed_urls = s.scraping_info.failed_url_list.length

instance (s : ScrapingSummary) : Decidable (coherent s) := by
  unfold coherent; infer_instance

/-! ## URL classification (crawler.ts `getFileExtension`, `isFileTypeAllowed`,
and the classification prologue of `processUrl`) -/

/-- Models `Crawler.getFileExtension(url)`: the trailing alphanumeric extension of
the URL's pathname (regex `\.([a-zA-Z0-9]+)$`), lower-cased; `null` when the
URL does not parse or the pathname has no such suffix. -/
def getFileExtension (url : String) : Option String :=
  match parseUrl url with
  | none => none
  | some (_, pathname) =>
    let cs := pathname.toList
    if cs.contains '.' then
      let suffix := (cs.reverse.takeWhile (· ≠ '.')).reverse
      if !suffix.isEmpty && suffix.all Char.isAlphanum then
        some ⟨suffix.map Char.toLower⟩
      else none
    else none

/-- The `isWebPage` test of `processUrl`: no URL extension, or one of the
page extensions `html`, `htm`, `php`, `aspx`. -/
def isWebPageUrl (url : String) : Bool :=
  match getFileExtension url with
  | none => true
  | some e => e == "html" || e == "htm" || e == "php" || e == "aspx"

/-- Models `Crawler.isFileTypeAllowed(extension)`: `all` allows everything; `html`
and `htm` require the `web` preset; any other extension must be listed. -/
def isFileTypeAllowed (cfg : CrawlerConfig) (extension : String) : Bool :=
  if cfg.file_types.contains "all" then true
  else if extension == "html" || extension == "htm" then
    cfg.file_types.contains "web"
  else cfg.file_types.contains extension

/-- The action the classification prologue of `processUrl` selects for a
dequeued URL. -/
inductive UrlAction
  | downloadBinary : String → UrlAction
  | skipItem
  | pageProcess
deriving DecidableEq, Repr

/-- The classification prologue of `Crawler.processUrl`: a non-page URL with
an allow-listed extension goes to the binary-download sub-path; a page URL is
skipped when neither `web` nor `all` is configured; everything else —
including a non-page URL whose extension is NOT allow-listed — continues into
the page-processing path. -/
def classifyAction (cfg : CrawlerConfig) (url : String) : UrlAction :=
  let urlExtension := getFileExtension url
  let isWebPage := isWebPageUrl url
  if urlExtension.isSome && !isWebPage && isFileTypeAllowed cfg (urlExtension.getD "") then
    UrlAction.downloadBinary (urlExtension.getD "")
  else if isWebPage && !cfg.file_types.contains "web" && !cfg.file_types.contains "all" then
    UrlAction.skipItem
  else
    UrlAction.pageProcess

/-! ## Scope decision: `Crawler.shouldCrawl` -/

/-- Models `Crawler.shouldCrawl(url)` of the evolved crawler: reject visited URLs,
URLs containing a blocked path substring, URLs whose hostname is a blocked
host; accept exactly the URLs whose hostname equals the start URL's
hostname.  The trailing `allowed_external_domains` branch of the source
returns `false` in both of its arms and is reproduced as written.  `rd`
models the external `tldts` `getDomain` utility (`Utils.getRootDomain`);
hostname extraction failures reproduce the source's `try/catch` blocks. -/
def shouldCrawl (rd : String → Option String) (cfg : CrawlerConfig)
    (visited : List String) (url : String) : Bool :=
  if visited.contains url then false
  else if cfg.blocked_paths.any (fun p => hasSubstr url p) then false
  else if (match urlHostname url with
           | some urlHost => cfg.blocked_hosts.contains urlHost
           | none => false) then false
  else if (match urlHostname cfg.start_url, urlHostname url with
           | some startHostname, some linkHostname => linkHostname == startHostname
           | _, _ => false) then true
  else
    if cfg.allowed_external_domains.contains ((rd url).getD "") then false
    else false

example : getFileExtension "https://example.com/file.zip" = some "zip" := by decide
example : getFileExtension "https://example.com/" = none := by decide
example : isWebPageUrl "https://example.com/file.zip" = false := by decide
example :
    classifyAction ⟨"https://example.com/", 1, ["web"], [], [], [], RunMode.full_run, none⟩
      "https://example.com/file.zip" = UrlAction.pageProcess := by decide

/-! ## The crawl state machine

`Crawler`'s mutable fields, plus the externally visible effect history: the
flat output directory (`files`) and the sequence of successful report writes
(`flushes`).  `processedLog` and `enqLog` are ghost fields recording, in
order, the URLs dequeued for processing and the URLs pushed onto the queue;
they change nothing else and exist only to state theorems. -/

/-- A frontier item: `{ url, depth }`. -/
structure QueueItem where
  url : String
  depth : Nat
deriving DecidableEq, Repr

/-- Content of a file in the flat output directory, abstracted to what the
crawler can later observe: a saved HTML page is re-read only for its anchor
targets, binary payloads are never re-read. -/
inductive FileData
  | page : List String → FileData
  | pdf
  | binary
deriving DecidableEq, Repr

/-- The external world the crawl consumes, at the renderer interface:
`rd` is the `tldts` root-domain parser; `nav url` is `page.goto(url)` —
`none` when navigation throws or times out, otherwise the response
content-type together with the anchor `href`s of the resulting DOM;
`fetchOk url` is whether `context.request.get(url)` resolves with an `ok`
status (`false` also covers transport errors, which the source handles
identically); `evalThrows url` is whether the `page.evaluate` link
extraction throws for this item (e.g. the page crashed after load).
Report and content-file writes are infallible here; the fallible-write
flow is modelled separately by `recordSuccessFallible`. -/
structure World where
  rd : String → Option String
  nav : String → Option (String × List String)
  fetchOk : String → Bool
  evalThrows : String → Bool

/-- The crawler's state: `Crawler`'s fields plus effect histories. -/
structure CrawlerState where
  visited : List String
  queue : List QueueItem
  summary : ScrapingSummary
  previousScraped : List String
  files : List (String × FileData)
  flushes : List ScrapingSummary
  processedLog : List String
  enqLog : List String
deriving DecidableEq, Repr

/-- Models `Crawler.updateReport()`: serialize the whole in-memory summary to the
report file (appended to the write history; the file on disk after any
interruption is the last element). -/
def updateReport (st : CrawlerState) : CrawlerState :=
  { st with flushes := st.flushes ++ [st.summary] }

/-- Models `Utils.saveFile`: write (or overwrite) a file in the flat output dir. -/
def saveFileD (st : CrawlerState) (name : String) (data : FileData) : CrawlerState :=
  { st with files := st.files.filter (fun f => f.1 ≠ name) ++ [(name, data)] }

/-- Models `fs.pathExists` for a name inside the output directory. -/
def fileExistsD (st : CrawlerState) (name : String) : Bool :=
  st.files.any (fun f => f.1 == name)

/-- Reading a saved page back (`fs.readFile` + `page.setContent`): the
anchor targets of the stored content; a binary file yields no anchors. -/
def storedLinks (st : CrawlerState) (name : String) : List String :=
  match (st.files.reverse.find? (fun f => f.1 == name)).map (·.2) with
  | some (FileData.page links) => links
  | _ => []

/-- Models the success record of processUrl (`successfully_scraped++`,
`scraped_urls.push(url)`, `updateReport()`). -/
def pushSuccess (s : ScrapingSummary) (url : String) : ScrapingSummary :=
  { s with
    scraping_info :=
      { s.scraping_info with
        successfully_scraped := s.scraping_info.successfully_scraped + 1 }
    scraped_urls := s.scraped_urls ++ [url] }

/-- Failure record (`failed_urls++`, `failed_url_list.push(url)`). -/
def pushFailure (s : ScrapingSummary) (url : String) : ScrapingSummary :=
  { s with
    scraping_info :=
      { s.scraping_info with
        failed_urls := s.scraping_info.failed_urls + 1
        failed_url_list := s.scraping_info.failed_url_list ++ [url] } }

/-- Resumed-recovery record: the URL is appended to `scraped_urls` WITHOUT
incrementing `successfully_scraped` (source comment: "we don't increment
successfully_scraped count for this run to avoid inflating stats"). -/
def pushRecovered (s : ScrapingSummary) (url : String) : ScrapingSummary :=
  { s with scraped_urls := s.scraped_urls ++ [url] }

/-- Models `total_discovered++`. -/
def bumpDiscovered (s : ScrapingSummary) : ScrapingSummary :=
  { s with
    scraping_info :=
      { s.scraping_info with
        total_discovered := s.scraping_info.total_discovered + 1 } }

/-- Record a success and flush. -/
def recordSuccess (st : CrawlerState) (url : String) : CrawlerState :=
  updateReport { st with summary := pushSuccess st.summary url }

/-- Record a failure and flush (the catch handler of `processUrl`, and the
non-ok/catch branches of `downloadBinaryFile`). -/
def recordFailure (st : CrawlerState) (url : String) : CrawlerState :=
  updateReport { st with summary := pushFailure st.summary url }

/-- Resume-skip recovery: append to `scraped_urls`, flush, and remember the
URL in `previousScraped` so it is not appended again. -/
def recordRecovered (st : CrawlerState) (url : String) : CrawlerState :=
  updateReport
    { st with
      summary := pushRecovered st.summary url
      previousScraped := st.previousScraped ++ [url] }

/-- One link of the extracted-link loop (processUrl): strip the fragment,
run the scope decision, and on acceptance mark visited, enqueue at
`depth + 1` and count it as discovered. -/
def enqueueLink (rd : String → Option String) (cfg : CrawlerConfig) (depth : Nat)
    (st : CrawlerState) (link : String) : CrawlerState :=
  let clean := cleanFragment link
  if shouldCrawl rd cfg st.visited clean then
    { st with
      visited := st.visited ++ [clean]
      queue := st.queue ++ [⟨clean, depth + 1⟩]
      summary := bumpDiscovered st.summary
      enqLog := st.enqLog ++ [clean] }
  else st

/-- The link-extraction epilogue of `processUrl`: only below the depth
cutoff; `page.evaluate` keeps only `href`s starting with `http`; a thrown
evaluation lands in the catch handler, which records the item as failed —
even though its success may already have been recorded. -/
def extractAndEnqueue (w : World) (cfg : CrawlerConfig) (st : CrawlerState)
    (url : String) (depth : Nat) (links : List String) : CrawlerState :=
  if depth < cfg.max_depth then
    if w.evalThrows url then recordFailure st url
    else (links.filter (fun l => l.startsWith "http")).foldl (enqueueLink w.rd cfg depth) st
  else st

/-- Models `Crawler.downloadBinaryFile(url, extension)`: resume-skip when the file
already exists (recovery append when absent from the loaded report), else a
raw fetch; an ok response saves the payload — in EVERY run mode — and
records success; a non-ok response or transport error records failure. -/
def downloadBinaryFile (w : World) (cfg : CrawlerConfig) (st : CrawlerState)
    (url extension : String) : CrawlerState :=
  let filename := sanitizeFilename url ++ "." ++ extension
  if cfg.resume_from.isSome && fileExistsD st filename then
    if st.previousScraped.contains url then st
    else recordRecovered st url
  else if w.fetchOk url then
    recordSuccess (saveFileD st filename FileData.binary) url
  else recordFailure st url

/-- The page path of `Crawler.processUrl`: resume-skip from an existing
`.html` file (appending a recovery record when the URL is missing from the
loaded report), or navigation; a response whose content-type includes
`application/pdf` (with `pdf` allow-listed) is saved as a `.pdf` payload —
in EVERY run mode — and recorded; otherwise the rendered page is saved only
in `full_run`, the success is recorded, and links are extracted below the
depth cutoff. -/
def processPage (w : World) (cfg : CrawlerConfig) (st : CrawlerState)
    (url : String) (depth : Nat) : CrawlerState :=
  let filename := sanitizeFilename url ++ ".html"
  if cfg.resume_from.isSome && fileExistsD st filename then
    let links := storedLinks st filename
    let st' := if st.previousScraped.contains url then st else recordRecovered st url
    extractAndEnqueue w cfg st' url depth links
  else
    match w.nav url with
    | none => recordFailure st url
    | some (contentType, links) =>
      if hasSubstr contentType "application/pdf" && isFileTypeAllowed cfg "pdf" then
        recordSuccess (saveFileD st (sanitizeFilename url ++ ".pdf") FileData.pdf) url
      else
        let st1 := if cfg.run_mode = RunMode.full_run
                   then saveFileD st filename (FileData.page links) else st
        extractAndEnqueue w cfg (recordSuccess st1 url) url depth links

/-- Appends the dequeued URL to the ghost `processedLog` (no observable
effect; it only lets theorems refer to the processing order). -/
def logProcessed (st : CrawlerState) (url : String) : CrawlerState :=
  { st with processedLog := st.processedLog ++ [url] }

/-- Models `Crawler.processUrl(item)`: classification prologue, then the binary
sub-path, the skip return, or the page path.  The dequeued URL is appended
to the ghost `processedLog`. -/
def processUrl (w : World) (cfg : CrawlerConfig) (st : CrawlerState)
    (url : String) (depth : Nat) : CrawlerState :=
  match classifyAction cfg url with
  | UrlAction.downloadBinary extension => downloadBinaryFile w cfg (logProcessed st url) url extension
  | UrlAction.skipItem => logProcessed st url
  | UrlAction.pageProcess => processPage w cfg (logProcessed st url) url depth

/-- The `while (queue.length > 0)` loop of `Crawler.start`, fuelled (the
source loop has no termination guarantee; every theorem quantifies over the
fuel or supplies enough of it). -/
def crawlLoop (w : World) (cfg : CrawlerConfig) : Nat → CrawlerState → CrawlerState
  | 0, st => st
  | Nat.succ fuel, st =>
    match st.queue with
    | [] => st
    | item :: rest =>
      crawlLoop w cfg fuel (processUrl w cfg { st with queue := rest } item.url item.depth)

/-- The summary built by the `Crawler` constructor: fresh counters, empty
lists, `base_url` from the config and `scraped_at` from the clock (`now`). -/
def constructorSummary (cfg : CrawlerConfig) (now : String) : ScrapingSummary :=
  { scraping_info :=
      { base_url := cfg.start_url
        scraped_at := now
        total_discovered := 0
        successfully_scraped := 0
        failed_urls := 0
        failed_url_list := [] }
    scraped_urls := [] }

/-- Models `Crawler.init()` up to its report write: when resuming and a readable
prior report exists (`prior = some p`; `none` covers both a missing and a
malformed report file, which the source discards), `previousScraped` is
rebuilt from the prior success list and the three counters are adopted —
but NOT the lists; then the initial state is immediately flushed to the
report file.  `disk` is the content of the (possibly reused) output
directory. -/
def initCrawler (cfg : CrawlerConfig) (now : String)
    (prior : Option ScrapingSummary) (disk : List (String × FileData)) : CrawlerState :=
  let base := constructorSummary cfg now
  let loaded : ScrapingSummary × List String :=
    match cfg.resume_from, prior with
    | some _, some p =>
      ({ base with
         scraping_info :=
           { base.scraping_info with
             total_discovered := p.scraping_info.total_discovered
             successfully_scraped := p.scraping_info.successfully_scraped
             failed_urls := p.scraping_info.failed_urls } },
       p.scraped_urls)
    | _, _ => (base, [])
  updateReport
    { visited := []
      queue := []
      summary := loaded.1
      previousScraped := loaded.2
      files := disk
      flushes := []
      processedLog := []
      enqLog := [] }

/-- Models the seeding step of `Crawler.start()`: enqueue the start URL at depth 0 with the start URL at depth 0
(marking it visited and counting it as discovered), drain the queue, and
perform the final `cleanup()` flush. -/
def seedStart (cfg : CrawlerConfig) (st : CrawlerState) : CrawlerState :=
  { st with
    queue := st.queue ++ [⟨cfg.start_url, 0⟩]
    visited := st.visited ++ [cfg.start_url]
    summary := bumpDiscovered st.summary
    enqLog := st.enqLog ++ [cfg.start_url] }

/-- Models a full run of `Crawler.start()`: seed the frontier, drain the
queue, and perform the final `cleanup()` flush. -/
def runCrawl (w : World) (cfg : CrawlerConfig) (fuel : Nat) (st : CrawlerState) : CrawlerState :=
  updateReport (crawlLoop w cfg fuel (seedStart cfg st))

/-! ## Fallible report writes

`updateReport` is `await fs.outputJson(...)`: a rejected write throws at
the `await`.  In `processUrl`, the success-path `updateReport` sits inside
the `try` block, so its failure transfers control to the item's `catch`
handler, which records the URL as FAILED and calls `updateReport` again;
that second call is not guarded, so its failure propagates out of
`processUrl` into the unguarded `while` loop of `start()` and terminates
the crawl.  `recordSuccessFallible` models this flow for one item: `ok1`
(`ok2`) tells whether the first (second) write resolves; the result is the
final in-memory summary, the list of report contents actually written, and
whether an exception propagated (terminating the frontier loop). -/
def recordSuccessFallible (ok1 ok2 : Bool) (url : String) (s : ScrapingSummary) :
    ScrapingSummary × List ScrapingSummary × Bool :=
  let s1 := pushSuccess s url
  if ok1 then (s1, [s1], false)
  else
    let s2 := pushFailure s1 url
    if ok2 then (s2, [s2], false) else (s2, [], true)

/-! ## Concrete scenarios

Named configurations and worlds used to instantiate the theorems below.
`cfgEx`/`wEx` is the worked example of the specification (§8): a seed page
linking to an in-scope page, a blocked path and an external host. -/

/-- The specification's worked-example configuration. -/
def cfgEx : CrawlerConfig :=
  ⟨"https://example.com/", 1, ["web"], ["/admin"], [], [], RunMode.full_run, none⟩

/-- The worked-example site: the seed links to `/about` (in scope),
`/admin/x` (blocked path) and an external host. -/
def wEx : World :=
  { rd := fun _ => none
    nav := fun u =>
      if u = "https://example.com/" then
        some ("text/html", ["https://example.com/about",
                            "https://example.com/admin/x",
                            "https://other.com/"])
      else if u = "https://example.com/about" then some ("text/html", [])
      else none
    fetchOk := fun _ => true
    evalThrows := fun _ => false }

/-- A single-page site (the seed has no links), crawled at depth 0. -/
def wSingle : World :=
  { rd := fun _ => none
    nav := fun u => if u = "https://example.com/" then some ("text/html", []) else none
    fetchOk := fun _ => true
    evalThrows := fun _ => false }

/-- Fresh-run configuration for the single-page site. -/
def cfgSingle : CrawlerConfig :=
  ⟨"https://example.com/", 0, ["web"], [], [], [], RunMode.full_run, none⟩

/-- The same configuration resumed into the first run's directory. -/
def cfgSingleResume : CrawlerConfig :=
  ⟨"https://example.com/", 0, ["web"], [], [], [], RunMode.full_run, some "Export/run1"⟩

/-- The completed first run over the single-page site. -/
def firstRun : CrawlerState := runCrawl wSingle cfgSingle 5 (initCrawler cfgSingle "T1" none [])

/-- A resumed configuration whose start URL is a page NOT yet crawled by
the first run (one genuinely new success in a resumed run). -/
def cfgResumeNew : CrawlerConfig :=
  ⟨"https://example.com/page2", 0, ["web"], [], [], [], RunMode.full_run, some "Export/run1"⟩

/-- The site for `cfgResumeNew`: only `page2` responds. -/
def wResumeNew : World :=
  { rd := fun _ => none
    nav := fun u => if u = "https://example.com/page2" then some ("text/html", []) else none
    fetchOk := fun _ => true
    evalThrows := fun _ => false }

/-- Dry-run configuration with the `pdf` extension allow-listed. -/
def cfgDry : CrawlerConfig :=
  ⟨"https://example.com/", 0, ["pdf"], [], [], [], RunMode.dry_run, none⟩

/-- A world whose raw fetches always succeed (used for binary downloads). -/
def wDry : World :=
  { rd := fun _ => none
    nav := fun _ => none
    fetchOk := fun _ => true
    evalThrows := fun _ => false }

/-- Configuration with only the `web` preset (a `.zip` link is then neither
an eligible file nor an eligible page). -/
def cfgZip : CrawlerConfig :=
  ⟨"https://example.com/", 1, ["web"], [], [], [], RunMode.full_run, none⟩

/-- A world serving the `.zip` URL with a non-HTML content type. -/
def wZip : World :=
  { rd := fun _ => none
    nav := fun u =>
      if u = "https://example.com/file.zip" then some ("application/zip", []) else none
    fetchOk := fun _ => true
    evalThrows := fun _ => false }

/-- A world where link extraction throws on the seed after its successful
navigation (e.g. the page crashes between load and `page.evaluate`). -/
def wEvalT : World :=
  { rd := fun _ => none
    nav := fun u => if u = "https://example.com/" then some ("text/html", []) else none
    fetchOk := fun _ => true
    evalThrows := fun u => u = "https://example.com/" }

/-- Depth-1 configuration used with `wEvalT`. -/
def cfgEvalT : CrawlerConfig :=
  ⟨"https://example.com/", 1, ["web"], [], [], [], RunMode.full_run, none⟩

/-- A root-domain oracle for the scope-decision witnesses: the registrable
domain is the last two dot-separated labels of the hostname. -/
def rdSimple (url : String) : Option String :=
  (urlHostname url).map (fun h =>
    let parts := h.splitOn "."
    String.intercalate "." (parts.drop (parts.length - 2)))

/-- Scope-decision configuration: blocked path, blocked host, and an
allow-listed external root domain (which the filter nevertheless rejects). -/
def cfgScope : CrawlerConfig :=
  ⟨"https://example.com/", 2, ["web"], ["/admin"], ["bad.example.com"],
   ["example.com", "other.com"], RunMode.full_run, none⟩

/-! ## Lemmas: coherence of flushes in fresh runs -/

/-- All report writes performed so far, and the in-memory summary, are
coherent snapshots. -/
def flushesOK (st : CrawlerState) : Prop :=
  coherent st.summary ∧ ∀ f ∈ st.flushes, coherent f

theorem coherent_pushSuccess {s : ScrapingSummary} (u : String) (h : coherent s) :
    coherent (pushSuccess s u) := by
  obtain ⟨h1, h2⟩ := h
  constructor <;> simp [pushSuccess, h1, h2]

theorem coherent_pushFailure {s : ScrapingSummary} (u : String) (h : coherent s) :
    coherent (pushFailure s u) := by
  obtain ⟨h1, h2⟩ := h
  constructor <;> simp [pushFailure, h1, h2]

theorem coherent_bumpDiscovered {s : ScrapingSummary} (h : coherent s) :
    coherent (bumpDiscovered s) := by
  obtain ⟨h1, h2⟩ := h
  constructor <;> simp [bumpDiscovered, h1, h2]

theorem flushesOK_updateReport {st : CrawlerState} (h : flushesOK st) :
    flushesOK (updateReport st) := by
  obtain ⟨h1, h2⟩ := h
  refine ⟨h1, ?_⟩
  intro f hf
  simp only [updateReport, List.mem_append, List.mem_singleton] at hf
  rcases hf with hf | hf
  · exact h2 f hf
  · simpa [hf] using h1

theorem flushesOK_saveFileD {st : CrawlerState} (n : String) (d : FileData)
    (h : flushesOK st) : flushesOK (saveFileD st n d) := h

theorem flushesOK_recordSuccess {st : CrawlerState} (u : String) (h : flushesOK st) :
    flushesOK (recordSuccess st u) := by
  apply flushesOK_updateReport
  exact ⟨coherent_pushSuccess u h.1, h.2⟩

theorem flushesOK_recordFailure {st : CrawlerState} (u : String) (h : flushesOK st) :
    flushesOK (recordFailure st u) := by
  apply flushesOK_updateReport
  exact ⟨coherent_pushFailure u h.1, h.2⟩

theorem flushesOK_enqueueLink {rd : String → Option String} {cfg : CrawlerConfig}
    {depth : Nat} {st : CrawlerState} {link : String} (h : flushesOK st) :
    flushesOK (enqueueLink rd cfg depth st link) := by
  simp only [enqueueLink]
  split
  · exact ⟨coherent_bumpDiscovered h.1, h.2⟩
  · exact h

theorem flushesOK_foldl_enqueueLink {rd : String → Option String} {cfg : CrawlerConfig}
    {depth : Nat} (links : List String) {st : CrawlerState} (h : flushesOK st) :
    flushesOK (links.foldl (enqueueLink rd cfg depth) st) := by
  induction links generalizing st with
  | nil => exact h
  | cons l ls ih => exact ih (flushesOK_enqueueLink h)

theorem flushesOK_extractAndEnqueue {w : World} {cfg : CrawlerConfig}
    {st : CrawlerState} {url : String} {depth : Nat} {links : List String}
    (h : flushesOK st) : flushesOK (extractAndEnqueue w cfg st url depth links) := by
  unfold extractAndEnqueue
  split
  · split
    · exact flushesOK_recordFailure url h
    · exact flushesOK_foldl_enqueueLink _ h
  · exact h

theorem flushesOK_processUrl {w : World} {cfg : CrawlerConfig} {st : CrawlerState}
    {url : String} {depth : Nat} (hres : cfg.resume_from = none) (h : flushesOK st) :
    flushesOK (processUrl w cfg st url depth) := by
  have hlog : flushesOK { st with processedLog := st.processedLog ++ [url] } := h
  unfold processUrl
  split
  · unfold downloadBinaryFile
    rw [hres]
    simp only [Option.isSome_none, Bool.false_and, Bool.false_eq_true, if_false]
    split
    · exact flushesOK_recordSuccess url (flushesOK_saveFileD _ _ hlog)
    · exact flushesOK_recordFailure url hlog
  · exact hlog
  · unfold processPage
    rw [hres]
    simp only [Option.isSome_none, Bool.false_and, Bool.false_eq_true, if_false]
    split
    · exact flushesOK_recordFailure url hlog
    · split
      · exact flushesOK_recordSuccess url (flushesOK_saveFileD _ _ hlog)
      · apply flushesOK_extractAndEnqueue
        apply flushesOK_recordSuccess
        split
        · exact flushesOK_saveFileD _ _ hlog
        · exact hlog

theorem flushesOK_crawlLoop {w : World} {cfg : CrawlerConfig} (fuel : Nat)
    {st : CrawlerState} (hres : cfg.resume_from = none) (h : flushesOK st) :
    flushesOK (crawlLoop w cfg fuel st) := by
  induction fuel generalizing st with
  | zero => exact h
  | succ n ih =>
    unfold crawlLoop
    split
    · exact h
    · exact ih (flushesOK_processUrl hres h)

theorem flushesOK_seedStart {cfg : CrawlerConfig} {st : CrawlerState}
    (h : flushesOK st) : flushesOK (seedStart cfg st) :=
  ⟨coherent_bumpDiscovered h.1, h.2⟩

theorem flushesOK_initCrawler_fresh (cfg : CrawlerConfig) (now : String)
    (prior : Option ScrapingSummary) (disk : List (String × FileData))
    (hres : cfg.resume_from = none) :
    flushesOK (initCrawler cfg now prior disk) := by
  unfold initCrawler
  rw [hres]
  apply flushesOK_updateReport
  refine ⟨⟨rfl, rfl⟩, ?_⟩
  intro f hf
  simp at hf

/-! ## Lemmas: de-duplication invariant of the frontier -/

/-- The de-duplication invariant maintained by the crawl loop: the visited
set and the enqueue log are duplicate-free, every enqueued or processed URL
is visited, a URL is never both pending and processed (nor pending twice),
and each report list holds a URL at most as often as it was processed. -/
structure DedupInv (st : CrawlerState) : Prop where
  visited_nodup : st.visited.Nodup
  enq_nodup : st.enqLog.Nodup
  enq_vis : ∀ u ∈ st.enqLog, u ∈ st.visited
  qp_nodup : ((st.queue.map QueueItem.url) ++ st.processedLog).Nodup
  q_vis : ∀ u ∈ st.queue.map QueueItem.url, u ∈ st.visited
  p_vis : ∀ u ∈ st.processedLog, u ∈ st.visited
  scraped_le : ∀ u, st.summary.scraped_urls.count u ≤ st.processedLog.count u
  failed_le : ∀ u, st.summary.scraping_info.failed_url_list.count u ≤ st.processedLog.count u

/-- A URL accepted by the scope decision is not yet visited (the first
check of `shouldCrawl`). -/
theorem shouldCrawl_not_visited {rd : String → Option String} {cfg : CrawlerConfig}
    {visited : List String} {url : String}
    (h : shouldCrawl rd cfg visited url = true) : url ∉ visited := by
  intro hmem
  have hc : visited.contains url = true := by simpa using hmem
  unfold shouldCrawl at h
  rw [hc] at h
  simp at h

theorem dedup_updateReport {st : CrawlerState} (h : DedupInv st) :
    DedupInv (updateReport st) :=
  ⟨h.visited_nodup, h.enq_nodup, h.enq_vis, h.qp_nodup, h.q_vis, h.p_vis,
   h.scraped_le, h.failed_le⟩

theorem dedup_saveFileD {st : CrawlerState} (n : String) (d : FileData)
    (h : DedupInv st) : DedupInv (saveFileD st n d) :=
  ⟨h.visited_nodup, h.enq_nodup, h.enq_vis, h.qp_nodup, h.q_vis, h.p_vis,
   h.scraped_le, h.failed_le⟩

theorem dedup_recordSuccess {st : CrawlerState} {url : String} (h : DedupInv st)
    (hs : st.summary.scraped_urls.count url < st.processedLog.count url) :
    DedupInv (recordSuccess st url) := by
  refine ⟨h.visited_nodup, h.enq_nodup, h.enq_vis, h.qp_nodup, h.q_vis, h.p_vis,
          ?_, h.failed_le⟩
  intro u
  show (st.summary.scraped_urls ++ [url]).count u ≤ st.processedLog.count u
  by_cases hu : u = url
  · subst hu; simpa using hs
  · simpa [List.count_append, hu] using h.scraped_le u

theorem dedup_recordRecovered {st : CrawlerState} {url : String} (h : DedupInv st)
    (hs : st.summary.scraped_urls.count url < st.processedLog.count url) :
    DedupInv (recordRecovered st url) := by
  refine ⟨h.visited_nodup, h.enq_nodup, h.enq_vis, h.qp_nodup, h.q_vis, h.p_vis,
          ?_, h.failed_le⟩
  intro u
  show (st.summary.scraped_urls ++ [url]).count u ≤ st.processedLog.count u
  by_cases hu : u = url
  · subst hu; simpa using hs
  · simpa [List.count_append, hu] using h.scraped_le u

theorem dedup_recordFailure {st : CrawlerState} {url : String} (h : DedupInv st)
    (hf : st.summary.scraping_info.failed_url_list.count url < st.processedLog.count url) :
    DedupInv (recordFailure st url) := by
  refine ⟨h.visited_nodup, h.enq_nodup, h.enq_vis, h.qp_nodup, h.q_vis, h.p_vis,
          h.scraped_le, ?_⟩
  intro u
  show (st.summary.scraping_info.failed_url_list ++ [url]).count u ≤ st.processedLog.count u
  by_cases hu : u = url
  · subst hu; simpa using hf
  · simpa [List.count_append, hu] using h.failed_le u

theorem dedup_enqueueLink {rd : String → Option String} {cfg : CrawlerConfig}
    {depth : Nat} {st : CrawlerState} {link : String} (h : DedupInv st) :
    DedupInv (enqueueLink rd cfg depth st link) := by
  simp only [enqueueLink]
  split
  case isTrue hsc =>
    have hnv : cleanFragment link ∉ st.visited := shouldCrawl_not_visited hsc
    have hne : cleanFragment link ∉ st.enqLog := fun hm => hnv (h.enq_vis _ hm)
    have hnq : cleanFragment link ∉ st.queue.map QueueItem.url :=
      fun hm => hnv (h.q_vis _ hm)
    have hnp : cleanFragment link ∉ st.processedLog := fun hm => hnv (h.p_vis _ hm)
    obtain ⟨hq_nd, hp_nd, hdisj⟩ := List.nodup_append.mp h.qp_nodup
    refine ⟨?_, ?_, ?_, ?_, ?_, ?_, h.scraped_le, h.failed_le⟩
    · simp [List.nodup_append, h.visited_nodup, hnv]
    · simp [List.nodup_append, h.enq_nodup, hne]
    · intro u hu
      rcases List.mem_append.mp hu with hu | hu
      · exact List.mem_append.mpr (Or.inl (h.enq_vis u hu))
      · exact List.mem_append.mpr (Or.inr hu)
    · show (((st.queue ++ [QueueItem.mk (cleanFragment link) (depth + 1)]).map QueueItem.url) ++
             st.processedLog).Nodup
      rw [List.map_append]
      refine List.nodup_append.mpr ⟨?_, hp_nd, ?_⟩
      · simp [List.nodup_append, hq_nd, hnq]
      · intro a ha hb
        rcases List.mem_append.mp ha with ha1 | ha1
        · exact hdisj ha1 hb
        · simp only [List.map_cons, List.map_nil, List.mem_singleton] at ha1
          subst ha1
          exact hnp hb
    · intro u hu
      simp only [List.map_append, List.map_cons, List.map_nil, List.mem_append] at hu
      rcases hu with hu | hu
      · exact List.mem_append.mpr (Or.inl (h.q_vis u hu))
      · simp only [List.mem_singleton] at hu
        exact List.mem_append.mpr (Or.inr (by simp [hu]))
    · intro u hu
      exact List.mem_append.mpr (Or.inl (h.p_vis u hu))
  case isFalse => exact h

theorem dedup_foldl_enqueueLink {rd : String → Option String} {cfg : CrawlerConfig}
    {depth : Nat} (links : List String) {st : CrawlerState} (h : DedupInv st) :
    DedupInv (links.foldl (enqueueLink rd cfg depth) st) := by
  induction links generalizing st with
  | nil => exact h
  | cons l ls ih => exact ih (dedup_enqueueLink h)

theorem dedup_extractAndEnqueue {w : World} {cfg : CrawlerConfig} {st : CrawlerState}
    {url : String} {depth : Nat} {links : List String} (h : DedupInv st)
    (hf : st.summary.scraping_info.failed_url_list.count url < st.processedLog.count url) :
    DedupInv (extractAndEnqueue w cfg st url depth links) := by
  unfold extractAndEnqueue
  split
  · split
    · exact dedup_recordFailure h hf
    · exact dedup_foldl_enqueueLink _ h
  · exact h

theorem dedup_downloadBinaryFile {w : World} {cfg : CrawlerConfig} {st : CrawlerState}
    {url extension : String} (h : DedupInv st)
    (hs : st.summary.scraped_urls.count url < st.processedLog.count url)
    (hf : st.summary.scraping_info.failed_url_list.count url < st.processedLog.count url) :
    DedupInv (downloadBinaryFile w cfg st url extension) := by
  simp only [downloadBinaryFile]
  split
  · split
    · exact h
    · exact dedup_recordRecovered h hs
  · split
    · exact dedup_recordSuccess (dedup_saveFileD _ _ h) hs
    · exact dedup_recordFailure h hf

theorem dedup_processPage {w : World} {cfg : CrawlerConfig} {st : CrawlerState}
    {url : String} {depth : Nat} (h : DedupInv st)
    (hs : st.summary.scraped_urls.count url < st.processedLog.count url)
    (hf : st.summary.scraping_info.failed_url_list.count url < st.processedLog.count url) :
    DedupInv (processPage w cfg st url depth) := by
  simp only [processPage]
  split
  · split
    · exact dedup_extractAndEnqueue h hf
    · exact dedup_extractAndEnqueue (dedup_recordRecovered h hs) hf
  · split
    · exact dedup_recordFailure h hf
    · split
      · exact dedup_recordSuccess (dedup_saveFileD _ _ h) hs
      · split
        · exact dedup_extractAndEnqueue
            (dedup_recordSuccess (dedup_saveFileD _ _ h) hs) hf
        · exact dedup_extractAndEnqueue (dedup_recordSuccess h hs) hf

theorem dedup_processUrl {w : World} {cfg : CrawlerConfig} {st : CrawlerState}
    {url : String} {depth : Nat} (h : DedupInv st)
    (hq : url ∉ st.queue.map QueueItem.url) (hp : url ∉ st.processedLog)
    (hv : url ∈ st.visited) :
    DedupInv (processUrl w cfg st url depth) := by
  have hnotin : url ∉ (st.queue.map QueueItem.url) ++ st.processedLog := by
    intro hm
    rcases List.mem_append.mp hm with hm | hm
    · exact hq hm
    · exact hp hm
  have h1 : DedupInv (logProcessed st url) := by
    refine ⟨h.visited_nodup, h.enq_nodup, h.enq_vis, ?_, h.q_vis, ?_, ?_, ?_⟩
    · show ((st.queue.map QueueItem.url) ++ (st.processedLog ++ [url])).Nodup
      rw [← List.append_assoc]
      refine List.nodup_append.mpr ⟨h.qp_nodup, List.nodup_singleton _, ?_⟩
      intro a ha hb
      simp only [List.mem_singleton] at hb
      subst hb
      exact hnotin ha
    · intro u hu
      rcases List.mem_append.mp hu with hu | hu
      · exact h.p_vis u hu
      · simp only [List.mem_singleton] at hu
        exact hu ▸ hv
    · intro u
      calc st.summary.scraped_urls.count u ≤ st.processedLog.count u := h.scraped_le u
        _ ≤ (st.processedLog ++ [url]).count u := by simp [List.count_append]
    · intro u
      calc st.summary.scraping_info.failed_url_list.count u
            ≤ st.processedLog.count u := h.failed_le u
        _ ≤ (st.processedLog ++ [url]).count u := by simp [List.count_append]
  have hl0 : st.processedLog.count url = 0 := List.count_eq_zero.mpr hp
  have hsc0 : st.summary.scraped_urls.count url = 0 :=
    Nat.le_zero.mp (hl0 ▸ h.scraped_le url)
  have hfl0 : st.summary.scraping_info.failed_url_list.count url = 0 :=
    Nat.le_zero.mp (hl0 ▸ h.failed_le url)
  have hs1 : (logProcessed st url).summary.scraped_urls.count url <
      (logProcessed st url).processedLog.count url := by
    show st.summary.scraped_urls.count url < (st.processedLog ++ [url]).count url
    simp [List.count_append, hl0, hsc0]
  have hf1 : (logProcessed st url).summary.scraping_info.failed_url_list.count url <
      (logProcessed st url).processedLog.count url := by
    show st.summary.scraping_info.failed_url_list.count url <
      (st.processedLog ++ [url]).count url
    simp [List.count_append, hl0, hfl0]
  unfold processUrl
  split
  · exact dedup_downloadBinaryFile h1 hs1 hf1
  · exact h1
  · exact dedup_processPage h1 hs1 hf1

theorem dedup_crawlLoop {w : World} {cfg : CrawlerConfig} (fuel : Nat)
    {st : CrawlerState} (h : DedupInv st) : DedupInv (crawlLoop w cfg fuel st) := by
  induction fuel generalizing st with
  | zero => exact h
  | succ n ih =>
    unfold crawlLoop
    split
    · exact h
    case h_2 item rest heq =>
      have hqp := h.qp_nodup
      rw [heq] at hqp
      simp only [List.map_cons, List.cons_append] at hqp
      obtain ⟨hhead, htail⟩ := List.nodup_cons.mp hqp
      have hitem_vis : item.url ∈ st.visited := by
        apply h.q_vis
        rw [heq]
        simp
      have hst' : DedupInv { st with queue := rest } := by
        refine ⟨h.visited_nodup, h.enq_nodup, h.enq_vis, htail, ?_, h.p_vis,
                h.scraped_le, h.failed_le⟩
        intro u hu
        apply h.q_vis
        rw [heq]
        simp only [List.map_cons, List.mem_cons]
        exact Or.inr hu
      have hq' : item.url ∉ rest.map QueueItem.url := by
        intro hm
        exact hhead (List.mem_append.mpr (Or.inl hm))
      have hp' : item.url ∉ st.processedLog := by
        intro hm
        exact hhead (List.mem_append.mpr (Or.inr hm))
      exact ih (dedup_processUrl hst' hq' hp' hitem_vis)

theorem dedup_init_seed (cfg : CrawlerConfig) (now : String)
    (prior : Option ScrapingSummary) (disk : List (String × FileData)) :
    DedupInv (seedStart cfg (initCrawler cfg now prior disk)) := by
  unfold seedStart initCrawler updateReport constructorSummary bumpDiscovered
  cases cfg.resume_from <;> cases prior <;>
    exact ⟨by simp, by simp, by simp, by simp, by simp, by simp,
           fun u => by simp, fun u => by simp⟩

theorem dedup_runCrawl (w : World) (cfg : CrawlerConfig) (now : String)
    (prior : Option ScrapingSummary) (disk : List (String × FileData)) (fuel : Nat) :
    DedupInv (runCrawl w cfg fuel (initCrawler cfg now prior disk)) :=
  dedup_updateReport (dedup_crawlLoop fuel (dedup_init_seed cfg now prior disk))

/-! ## Claim theorems -/

/-- C7 counterexample: with one eligible page whose link extraction throws
after its success was already recorded, the URL
`https://example.com/` appears in BOTH `scraped_urls` and
`failed_url_list` — i.e. twice across the two lists combined — refuting the
claim that a URL occurs at most once across the success and failed lists. -/
theorem urlInBothLists :
    (runCrawl wEvalT cfgEvalT 5 (initCrawler cfgEvalT "T" none [])).summary.scraped_urls
      = ["https://example.com/"] ∧
    (runCrawl wEvalT cfgEvalT 5
        (initCrawler cfgEvalT "T" none [])).summary.scraping_info.failed_url_list
      = ["https://example.com/"] ∧
    ((runCrawl wEvalT cfgEvalT 5 (initCrawler cfgEvalT "T" none [])).summary.scraped_urls ++
      (runCrawl wEvalT cfgEvalT 5
        (initCrawler cfgEvalT "T" none [])).summary.scraping_info.failed_url_list).count
        "https://example.com/" = 2 := by
  refine ⟨by decide, by decide, by decide⟩

/-- C7 (amended): in every run — any world, configuration, prior report and
fuel — each URL appears at most once in `scraped_urls` and at most once in
`failed_url_list` (though possibly in both), the enqueue log is
duplicate-free (no URL is ever enqueued twice), the visited set is
duplicate-free (a URL enters it at most once; it is only ever appended to,
never removed), and every enqueued URL is in the visited set. -/
theorem crawlDedupInvariant (w : World) (cfg : CrawlerConfig) (now : String)
    (prior : Option ScrapingSummary) (disk : List (String × FileData)) (fuel : Nat) :
    (∀ u, (runCrawl w cfg fuel
        (initCrawler cfg now prior disk)).summary.scraped_urls.count u ≤ 1) ∧
    (∀ u, (runCrawl w cfg fuel
        (initCrawler cfg now prior disk)).summary.scraping_info.failed_url_list.count u ≤ 1) ∧
    (runCrawl w cfg fuel (initCrawler cfg now prior disk)).enqLog.Nodup ∧
    (runCrawl w cfg fuel (initCrawler cfg now prior disk)).visited.Nodup ∧
    (∀ u ∈ (runCrawl w cfg fuel (initCrawler cfg now prior disk)).enqLog,
        u ∈ (runCrawl w cfg fuel (initCrawler cfg now prior disk)).visited) := by
  have h := dedup_runCrawl w cfg now prior disk fuel
  have hlog := h.qp_nodup.of_append_right
  have hcount := List.nodup_iff_count_le_one.mp hlog
  exact ⟨fun u => le_trans (h.scraped_le u) (hcount u),
         fun u => le_trans (h.failed_le u) (hcount u),
         h.enq_nodup, h.visited_nodup, h.enq_vis⟩

/-- C1 counterexample: a resumed run over a completed single-page crawl,
whose start URL is one genuinely new page, flushes a report (both at the
success event and at the final flush) in which `successfully_scraped = 2`
while `scraped_urls` has length 1 — the adopted counters are incoherent
with the lists, refuting coherence at every flush for resumed runs. -/
theorem resumedFlushIncoherent :
    (runCrawl wResumeNew cfgResumeNew 5
        (initCrawler cfgResumeNew "T2" (some firstRun.summary)
          firstRun.files)).summary.scraping_info.successfully_scraped = 2 ∧
    (runCrawl wResumeNew cfgResumeNew 5
        (initCrawler cfgResumeNew "T2" (some firstRun.summary)
          firstRun.files)).summary.scraped_urls.length = 1 ∧
    (runCrawl wResumeNew cfgResumeNew 5
        (initCrawler cfgResumeNew "T2" (some firstRun.summary) firstRun.files)).flushes.getLast?
      = some (runCrawl wResumeNew cfgResumeNew 5
          (initCrawler cfgResumeNew "T2" (some firstRun.summary) firstRun.files)).summary ∧
    ¬ coherent (runCrawl wResumeNew cfgResumeNew 5
        (initCrawler cfgResumeNew "T2" (some firstRun.summary) firstRun.files)).summary := by
  refine ⟨by decide, by decide, by decide, by decide⟩

/-- C1 (amended): in every run started WITHOUT resume, every flush of the
persisted report — the initial write, each event write and the final
write — is a coherent snapshot: `successfully_scraped` equals the length of
`scraped_urls` and `failed_urls` equals the length of `failed_url_list`.
(In resumed runs the prior counters are adopted without the prior lists,
and coherence fails; see the counterexample.) -/
theorem freshRunFlushesCoherent (w : World) (cfg : CrawlerConfig) (now : String)
    (prior : Option ScrapingSummary) (disk : List (String × FileData)) (fuel : Nat)
    (hres : cfg.resume_from = none) :
    ∀ f ∈ (runCrawl w cfg fuel (initCrawler cfg now prior disk)).flushes, coherent f := by
  have h : flushesOK (runCrawl w cfg fuel (initCrawler cfg now prior disk)) := by
    apply flushesOK_updateReport
    exact flushesOK_crawlLoop fuel hres
      (flushesOK_seedStart (flushesOK_initCrawler_fresh cfg now prior disk hres))
  exact h.2

/-- The final `cleanup()` flush always writes the current summary, so the
final summary is one of the report's flushed snapshots. -/
theorem summary_mem_flushes_runCrawl (w : World) (cfg : CrawlerConfig) (fuel : Nat)
    (st : CrawlerState) :
    (runCrawl w cfg fuel st).summary ∈ (runCrawl w cfg fuel st).flushes := by
  show (updateReport (crawlLoop w cfg fuel (seedStart cfg st))).summary ∈
    (updateReport (crawlLoop w cfg fuel (seedStart cfg st))).flushes
  simp [updateReport]

/-- C1 witness: the final report summary of the specification's worked
example (a fresh run) is itself one of the flushes, and coherent. -/
theorem freshRunFlushesCoherentWitness :
    coherent (runCrawl wEx cfgEx 10 (initCrawler cfgEx "T1" none [])).summary :=
  freshRunFlushesCoherent wEx cfgEx "T1" none [] 10 rfl
    (runCrawl wEx cfgEx 10 (initCrawler cfgEx "T1" none [])).summary
    (summary_mem_flushes_runCrawl wEx cfgEx 10 (initCrawler cfgEx "T1" none []))

/-- C2 counterexample: resuming over a completed run whose report lists one
scraped URL (recorded at `T1`), initialization itself — before any new
event — performs a report write whose `scraped_urls` list is empty and
whose `scraped_at` is the new run's clock, i.e. the write changes the
loaded report's lists and timestamp. -/
theorem initOverwritesLoadedReport :
    firstRun.summary.scraped_urls = ["https://example.com/"] ∧
    firstRun.summary.scraping_info.scraped_at = "T1" ∧
    (initCrawler cfgSingleResume "T2" (some firstRun.summary) firstRun.files).flushes.map
        (fun f => f.scraped_urls) = [[]] ∧
    (initCrawler cfgSingleResume "T2" (some firstRun.summary) firstRun.files).flushes.map
        (fun f => f.scraping_info.scraped_at) = ["T2"] := by
  refine ⟨by decide, by decide, by decide, by decide⟩

/-- C2 (amended): on resume with a readable prior report, initialization
performs exactly one report write; that write adopts the prior counters
(`total_discovered`, `successfully_scraped`, `failed_urls`) but resets both
lists to empty, stamps `scraped_at` with the new run's clock and `base_url`
with the configured start URL; the loaded success list survives only in the
in-memory `previousScraped` set. -/
theorem initWritePreservesCountersResetsLists (cfg : CrawlerConfig) (now : String)
    (p : ScrapingSummary) (disk : List (String × FileData))
    (hres : cfg.resume_from.isSome = true) :
    (initCrawler cfg now (some p) disk).flushes
      = [(initCrawler cfg now (some p) disk).summary] ∧
    (initCrawler cfg now (some p) disk).summary.scraping_info.total_discovered
      = p.scraping_info.total_discovered ∧
    (initCrawler cfg now (some p) disk).summary.scraping_info.successfully_scraped
      = p.scraping_info.successfully_scraped ∧
    (initCrawler cfg now (some p) disk).summary.scraping_info.failed_urls
      = p.scraping_info.failed_urls ∧
    (initCrawler cfg now (some p) disk).summary.scraped_urls = [] ∧
    (initCrawler cfg now (some p) disk).summary.scraping_info.failed_url_list = [] ∧
    (initCrawler cfg now (some p) disk).summary.scraping_info.scraped_at = now ∧
    (initCrawler cfg now (some p) disk).summary.scraping_info.base_url = cfg.start_url ∧
    (initCrawler cfg now (some p) disk).previousScraped = p.scraped_urls := by
  obtain ⟨dir, hdir⟩ := Option.isSome_iff_exists.mp hres
  unfold initCrawler updateReport constructorSummary
  rw [hdir]
  simp

/-- C2 witness: instantiating the amended init contract on the completed
single-page run shows the on-disk list after init is empty. -/
theorem initWritePreservesCountersResetsListsWitness :
    (initCrawler cfgSingleResume "T2" (some firstRun.summary) firstRun.files).summary.scraped_urls
      = [] :=
  (initWritePreservesCountersResetsLists cfgSingleResume "T2" firstRun.summary
    firstRun.files (by decide)).2.2.2.2.1

/-- C4 (code bug): in `dry_run` mode, processing an allow-listed binary URL
still writes the payload to the output directory: `downloadBinaryFile` (and
likewise the header-reclassified PDF path) never consults `run_mode`, so
`doc-pdf.pdf` is created although the repository's own planning document
demands that a dry run saves no content files. -/
theorem dryRunStillWritesBinaryFile :
    cfgDry.run_mode = RunMode.dry_run ∧
    (processUrl wDry cfgDry (initCrawler cfgDry "T" none [])
        "https://example.com/doc.pdf" 0).files
      = [("doc-pdf.pdf", FileData.binary)] := by
  refine ⟨by decide, by decide⟩

/-- C8 counterexample: when the success-path report write fails, the item's
catch handler records the SAME url as a failure — the in-memory summary is
mutated by the failed write, not left unchanged; and when the catch
handler's own report write also fails, the exception propagates out of
`processUrl` (third component `true`), terminating the unguarded frontier
loop of `start()`. -/
theorem reportWriteFailureMutatesState :
    (recordSuccessFallible false true "https://example.com/"
        (constructorSummary cfgSingle "T1")).1.scraping_info.failed_url_list
      = ["https://example.com/"] ∧
    (recordSuccessFallible false true "https://example.com/"
        (constructorSummary cfgSingle "T1")).1
      ≠ pushSuccess (constructorSummary cfgSingle "T1") "https://example.com/" ∧
    (recordSuccessFallible false false "https://example.com/"
        (constructorSummary cfgSingle "T1")).2.2 = true := by
  refine ⟨by decide, by decide, by decide⟩

/-- C8 (amended): the complete behaviour of a success record under fallible
report writes — if the first write resolves, the summary holds the success
and nothing else; if it rejects, the catch handler additionally records the
URL as failed and re-writes, and the crawl continues; if that second write
also rejects, the exception propagates (the frontier loop terminates). -/
theorem recordSuccessFallibleSpec (ok2 : Bool) (url : String) (s : ScrapingSummary) :
    recordSuccessFallible true ok2 url s = (pushSuccess s url, [pushSuccess s url], false) ∧
    recordSuccessFallible false true url s =
      (pushFailure (pushSuccess s url) url,
       [pushFailure (pushSuccess s url) url], false) ∧
    recordSuccessFallible false false url s =
      (pushFailure (pushSuccess s url) url, [], true) := by
  unfold recordSuccessFallible
  exact ⟨rfl, rfl, rfl⟩

/-- Collapsing hyphen runs introduces no new characters. -/
theorem mem_squeezeDashes {c : Char} : ∀ l : List Char, c ∈ squeezeDashes l → c ∈ l := by
  intro l
  induction l with
  | nil => intro h; simp [squeezeDashes] at h
  | cons a t ih =>
    cases t with
    | nil => intro h; simpa [squeezeDashes] using h
    | cons b r =>
      intro h
      simp only [squeezeDashes] at h
      split at h
      · exact List.mem_cons_of_mem a (ih h)
      · rcases List.mem_cons.mp h with h | h
        · exact h ▸ List.mem_cons_self a _
        · exact List.mem_cons_of_mem a (ih h)

/-- C9 counterexample: two distinct URLs — the same path on different
hosts — receive the same sanitized filename, refuting collision
resistance (the mapping discards hostname and query entirely). -/
theorem sanitizeFilenameCollision :
    "https://a.com/x" ≠ "https://b.com/x" ∧
    sanitizeFilename "https://a.com/x" = sanitizeFilename "https://b.com/x" := by
  refine ⟨by decide, by decide⟩

/-- C9 (amended): the URL-to-filename mapping is a pure function of the URL
(deterministic) and its output never contains the path separator `/` — but
it is NOT collision-resistant: distinct URLs can share a filename. -/
theorem sanitizeFilenameNoSeparator :
    (∀ url : String, '/' ∉ (sanitizeFilename url).toList) ∧
    (∃ u v : String, u ≠ v ∧ sanitizeFilename u = sanitizeFilename v) := by
  constructor
  · intro url
    unfold sanitizeFilename
    cases hp : parseUrl url with
    | some pr =>
      obtain ⟨host, pathname⟩ := pr
      intro hmem
      have h1 : '/' ∈ squeezeDashes
          (((if ((pathname.toList.dropWhile (· = '/')).reverse.dropWhile
                  (· = '/')).reverse.isEmpty
              then "index".toList
              else ((pathname.toList.dropWhile (· = '/')).reverse.dropWhile
                  (· = '/')).reverse).map
            (fun c => if c = '/' then '-' else c)).map
            (fun c => if c.isAlphanum || c = '-' || c = '_' then c else '-')) :=
        List.mem_of_mem_take hmem
      have h2 := mem_squeezeDashes _ h1
      rcases List.mem_map.mp h2 with ⟨cc, hcc, hc⟩
      by_cases hg : (cc.isAlphanum || cc = '-' || cc = '_') = true
      · rw [if_pos hg] at hc
        subst hc
        simp at hg
      · rw [if_neg hg] at hc
        exact absurd hc (by decide)
    | none =>
      intro hmem
      have h1 : '/' ∈ (stripScheme url.toList).map
          (fun c => if c.isAlphanum || c = '.' || c = '-' || c = '_' then c else '_') :=
        List.mem_of_mem_take hmem
      rcases List.mem_map.mp h1 with ⟨cc, hcc, hc⟩
      by_cases hg : (cc.isAlphanum || cc = '.' || cc = '-' || cc = '_') = true
      · rw [if_pos hg] at hc
        subst hc
        simp at hg
      · rw [if_neg hg] at hc
        exact absurd hc (by decide)
  · exact ⟨"https://a.com/x", "https://b.com/x", by decide, by decide⟩

/-- C6 counterexample: `https://example.com/file.zip` with
`file_types = ["web"]` is neither an eligible file (`zip` is not
allow-listed) nor a page (`zip` is not a page extension), yet the
orchestrator does NOT skip it: the classification falls through to the
page path, the URL is navigated, its rendered content is saved as
`file-zip.html`, and it is recorded as a success. -/
theorem disallowedExtensionProcessedAsPage :
    getFileExtension "https://example.com/file.zip" = some "zip" ∧
    isWebPageUrl "https://example.com/file.zip" = false ∧
    isFileTypeAllowed cfgZip "zip" = false ∧
    (processUrl wZip cfgZip (initCrawler cfgZip "T" none [])
        "https://example.com/file.zip" 1).summary.scraped_urls
      = ["https://example.com/file.zip"] ∧
    (processUrl wZip cfgZip (initCrawler cfgZip "T" none [])
        "https://example.com/file.zip" 1).files.map (fun f => f.1)
      = ["file-zip.html"] := by
  refine ⟨by decide, by decide, by decide, by decide, by decide⟩

/-- C6 (amended): an item the classifier sends to the skip branch is left
untouched — no fetch, no record, no write, no flush (only the ghost
processing log advances); the skip branch is taken exactly for
page-classified URLs when neither `web` nor `all` is configured; a URL
with a non-page extension that is NOT allow-listed is never skipped — it
falls through to the page-processing path. -/
theorem skipOnlyForPageItems (w : World) (cfg : CrawlerConfig) (st : CrawlerState)
    (url : String) (depth : Nat) :
    (classifyAction cfg url = UrlAction.skipItem →
      processUrl w cfg st url depth = logProcessed st url) ∧
    (∀ e, getFileExtension url = some e → isWebPageUrl url = false →
      isFileTypeAllowed cfg e = false →
      classifyAction cfg url = UrlAction.pageProcess) ∧
    (classifyAction cfg url = UrlAction.skipItem ↔
      (isWebPageUrl url = true ∧ cfg.file_types.contains "web" = false ∧
        cfg.file_types.contains "all" = false)) := by
  refine ⟨?_, ?_, ?_⟩
  · intro h
    unfold processUrl
    rw [h]
  · intro e he hw hta
    simp [classifyAction, he, hw, hta]
  · unfold classifyAction
    cases hw : isWebPageUrl url <;>
      cases hweb : cfg.file_types.contains "web" <;>
        cases hall : cfg.file_types.contains "all" <;>
          simp [hw, hweb, hall] <;>
          cases hext : getFileExtension url <;>
            simp [hext] <;> split <;> simp

/-- C6 witness: a page URL under `file_types = ["pdf"]` is skipped with no
state change beyond the ghost log, while the disallowed `.zip` URL under
`file_types = ["web"]` is classified into the page path. -/
theorem skipOnlyForPageItemsWitness :
    processUrl wDry cfgDry (initCrawler cfgDry "T" none [])
        "https://example.com/about" 0
      = logProcessed (initCrawler cfgDry "T" none []) "https://example.com/about" ∧
    classifyAction cfgZip "https://example.com/file.zip" = UrlAction.pageProcess :=
  ⟨(skipOnlyForPageItems wDry cfgDry (initCrawler cfgDry "T" none [])
      "https://example.com/about" 0).1 (by decide),
   (skipOnlyForPageItems wZip cfgZip (initCrawler cfgZip "T" none [])
      "https://example.com/file.zip" 1).2.1 "zip" (by decide) (by decide) (by decide)⟩

/-- C5 (confirmed): for any root-domain oracle, configuration and visited
set, and any URL whose hostname parses (with the start URL's hostname also
parsing), `shouldCrawl` accepts exactly when the URL is not visited, no
configured blocked path occurs in it, its hostname is not a blocked host,
and its hostname equals the start URL's hostname.  The right-hand side
mentions neither the root-domain oracle nor `allowed_external_domains`: a
URL on a different hostname is rejected even when it is a subdomain of the
same root domain and even when its root domain is allow-listed. -/
theorem shouldCrawlCharacterization (rd : String → Option String)
    (cfg : CrawlerConfig) (visited : List String) (url startHost linkHost : String)
    (hs : urlHostname cfg.start_url = some startHost)
    (hu : urlHostname url = some linkHost) :
    shouldCrawl rd cfg visited url = true ↔
      (url ∉ visited ∧
       (∀ p ∈ cfg.blocked_paths, hasSubstr url p = false) ∧
       linkHost ∉ cfg.blocked_hosts ∧
       linkHost = startHost) := by
  unfold shouldCrawl
  rw [hs, hu]
  by_cases h1 : visited.contains url
  · simp only [h1, if_true]
    constructor
    · intro h; exact absurd h (by simp)
    · intro h
      exact absurd (by simpa using h1) h.1
  · rw [if_neg (by simpa using h1)]
    by_cases h2 : cfg.blocked_paths.any (fun p => hasSubstr url p)
    · rw [if_pos h2]
      constructor
      · intro h; exact absurd h (by simp)
      · intro h
        rcases List.any_eq_true.mp h2 with ⟨p, hp, hsub⟩
        exact absurd hsub (by simp [h.2.1 p hp])
    · rw [if_neg h2]
      by_cases h3 : cfg.blocked_hosts.contains linkHost
      · simp only [h3, if_true]
        constructor
        · intro h; exact absurd h (by simp)
        · intro h
          exact absurd (by simpa using h3) h.2.2.1
      · rw [if_neg (by simpa using h3)]
        by_cases h4 : linkHost = startHost
        · subst h4
          rw [if_pos (by simp)]
          refine iff_of_true rfl ⟨by simpa using h1, ?_, by simpa using h3, rfl⟩
          intro p hp
          by_contra hc
          exact h2 (List.any_eq_true.mpr ⟨p, hp, by simpa using hc⟩)
        · rw [if_neg (by simpa using h4)]
          constructor
          · intro h
            split at h <;> exact absurd h (by simp)
          · intro h
            exact absurd h.2.2.2 h4

/-- C5 witness: under the scope configuration, a same-hostname URL is
accepted, while a subdomain of the same root domain is rejected even though
`example.com` is listed in `allowed_external_domains`. -/
theorem shouldCrawlCharacterizationWitness :
    shouldCrawl rdSimple cfgScope [] "https://example.com/about" = true ∧
    shouldCrawl rdSimple cfgScope [] "https://sub.example.com/about" = false :=
  ⟨(shouldCrawlCharacterization rdSimple cfgScope [] "https://example.com/about"
      "example.com" "example.com" (by decide) (by decide)).mpr (by decide),
   Bool.eq_false_iff.mpr (fun hc =>
     absurd ((shouldCrawlCharacterization rdSimple cfgScope []
       "https://sub.example.com/about" "example.com" "sub.example.com"
       (by decide) (by decide)).mp hc) (by decide))⟩

/-- The crawl loop is inert on an empty frontier. -/
theorem crawlLoop_empty {w : World} {cfg : CrawlerConfig} (fuel : Nat)
    {st : CrawlerState} (h : st.queue = []) : crawlLoop w cfg fuel st = st := by
  cases fuel with
  | zero => rfl
  | succ n =>
    unfold crawlLoop
    rw [h]

/-- A resumed run whose seed is already on disk and already recorded, with
depth cutoff 0, performs exactly one resume-skip: the output directory is
untouched and the final summary is the initial one with `total_discovered`
re-incremented for the seed. -/
theorem resume_noop_run (w : World) (cfg : CrawlerConfig) (dir : String) (fuel : Nat)
    (st0 : CrawlerState)
    (hres : cfg.resume_from = some dir)
    (hdepth : cfg.max_depth = 0)
    (hq : st0.queue = [])
    (hfile : st0.files.any (fun f => f.1 == sanitizeFilename cfg.start_url ++ ".html") = true)
    (hprev : st0.previousScraped.contains cfg.start_url = true)
    (hclass : classifyAction cfg cfg.start_url = UrlAction.pageProcess) :
    (runCrawl w cfg (fuel + 1) st0).files = st0.files ∧
    (runCrawl w cfg (fuel + 1) st0).summary = bumpDiscovered st0.summary := by
  have hseed : (seedStart cfg st0).queue = [QueueItem.mk cfg.start_url 0] := by
    show st0.queue ++ [QueueItem.mk cfg.start_url 0] = _
    rw [hq]
    rfl
  have hstep : crawlLoop w cfg (fuel + 1) (seedStart cfg st0)
      = crawlLoop w cfg fuel (processUrl w cfg { seedStart cfg st0 with queue := [] }
          cfg.start_url 0) := by
    simp only [crawlLoop]
    rw [hseed]
  have hproc : processUrl w cfg { seedStart cfg st0 with queue := [] } cfg.start_url 0
      = logProcessed { seedStart cfg st0 with queue := [] } cfg.start_url := by
    unfold processUrl
    rw [hclass]
    simp only [processPage, extractAndEnqueue, hres, hdepth, Option.isSome_some,
      Bool.true_and]
    rw [show fileExistsD (logProcessed { seedStart cfg st0 with queue := [] }
        cfg.start_url) (sanitizeFilename cfg.start_url ++ ".html") = true from hfile]
    rw [show (logProcessed { seedStart cfg st0 with queue := [] }
        cfg.start_url).previousScraped.contains cfg.start_url = true from hprev]
    simp
  unfold runCrawl
  rw [hstep, hproc, crawlLoop_empty fuel rfl]
  exact ⟨rfl, rfl⟩

/-- C3 counterexample: completing the single-page crawl and then resuming
it with no new frontier contribution leaves the output files byte-identical
but NOT the report: the second run's final report has an empty success list
(the resumed URL is never re-appended) and a re-incremented
`total_discovered`, so it differs from the first run's final report. -/
theorem resumeNotByteIdentical :
    (runCrawl wSingle cfgSingleResume 5
        (initCrawler cfgSingleResume "T2" (some firstRun.summary) firstRun.files)).files
      = firstRun.files ∧
    (runCrawl wSingle cfgSingleResume 5
        (initCrawler cfgSingleResume "T2" (some firstRun.summary) firstRun.files)).summary
      ≠ firstRun.summary ∧
    firstRun.summary.scraped_urls = ["https://example.com/"] ∧
    (runCrawl wSingle cfgSingleResume 5
        (initCrawler cfgSingleResume "T2" (some firstRun.summary)
          firstRun.files)).summary.scraped_urls = [] ∧
    firstRun.summary.scraping_info.total_discovered = 1 ∧
    (runCrawl wSingle cfgSingleResume 5
        (initCrawler cfgSingleResume "T2" (some firstRun.summary)
          firstRun.files)).summary.scraping_info.total_discovered = 2 := by
  refine ⟨by decide, by decide, by decide, by decide, by decide, by decide⟩

/-- C3 (amended): resuming a completed depth-0 crawl whose seed is already
on disk and already in the prior report touches no output file and keeps
the success/failure counters, but re-increments `total_discovered` for the
re-seeded start URL and leaves the success list empty — the report is
therefore not byte-identical to the first run's final report whenever that
report's success list was non-empty. -/
theorem resumedRunKeepsFilesNotReport (w : World) (cfg : CrawlerConfig)
    (now dir : String) (p : ScrapingSummary) (disk : List (String × FileData))
    (fuel : Nat)
    (hres : cfg.resume_from = some dir)
    (hdepth : cfg.max_depth = 0)
    (hclass : classifyAction cfg cfg.start_url = UrlAction.pageProcess)
    (hfile : disk.any (fun f => f.1 == sanitizeFilename cfg.start_url ++ ".html") = true)
    (hprev : p.scraped_urls.contains cfg.start_url = true) :
    (runCrawl w cfg (fuel + 1) (initCrawler cfg now (some p) disk)).files = disk ∧
    (runCrawl w cfg (fuel + 1)
        (initCrawler cfg now (some p) disk)).summary.scraping_info.successfully_scraped
      = p.scraping_info.successfully_scraped ∧
    (runCrawl w cfg (fuel + 1)
        (initCrawler cfg now (some p) disk)).summary.scraping_info.failed_urls
      = p.scraping_info.failed_urls ∧
    (runCrawl w cfg (fuel + 1)
        (initCrawler cfg now (some p) disk)).summary.scraping_info.total_discovered
      = p.scraping_info.total_discovered + 1 ∧
    (runCrawl w cfg (fuel + 1)
        (initCrawler cfg now (some p) disk)).summary.scraped_urls = [] ∧
    (runCrawl w cfg (fuel + 1)
        (initCrawler cfg now (some p) disk)).summary.scraping_info.failed_url_list = [] := by
  have hsum : (initCrawler cfg now (some p) disk).summary =
      { scraping_info :=
          { base_url := cfg.start_url, scraped_at := now,
            total_discovered := p.scraping_info.total_discovered,
            successfully_scraped := p.scraping_info.successfully_scraped,
            failed_urls := p.scraping_info.failed_urls, failed_url_list := [] },
        scraped_urls := [] } := by
    unfold initCrawler updateReport constructorSummary
    rw [hres]
  have hps : (initCrawler cfg now (some p) disk).previousScraped = p.scraped_urls := by
    unfold initCrawler updateReport
    rw [hres]
  have h := resume_noop_run w cfg dir fuel (initCrawler cfg now (some p) disk)
    hres hdepth rfl hfile (by rw [hps]; exact hprev) hclass
  refine ⟨h.1, ?_, ?_, ?_, ?_, ?_⟩ <;> simp [h.2, hsum, bumpDiscovered]

/-- C3 witness: the amended statement instantiated on the concrete
single-page scenario. -/
theorem resumedRunKeepsFilesNotReportWitness :
    (runCrawl wSingle cfgSingleResume 5
        (initCrawler cfgSingleResume "T2" (some firstRun.summary) firstRun.files)).files
      = firstRun.files ∧
    (runCrawl wSingle cfgSingleResume 5
        (initCrawler cfgSingleResume "T2" (some firstRun.summary)
          firstRun.files)).summary.scraped_urls = [] :=
  ⟨(resumedRunKeepsFilesNotReport wSingle cfgSingleResume "T2" "Export/run1"
      firstRun.summary firstRun.files 4 rfl rfl (by decide) (by decide) (by decide)).1,
   (resumedRunKeepsFilesNotReport wSingle cfgSingleResume "T2" "Export/run1"
      firstRun.summary firstRun.files 4 rfl rfl (by decide) (by decide)
      (by decide)).2.2.2.2.1⟩

/-- C7 witness: the de-duplication bound instantiated on the worked
example's final report. -/
theorem crawlDedupInvariantWitness :
    (runCrawl wEx cfgEx 10 (initCrawler cfgEx "T1" none [])).summary.scraped_urls.count
        "https://example.com/about" ≤ 1 :=
  (crawlDedupInvariant wEx cfgEx "T1" none [] 10).1 "https://example.com/about"

/-- C9 witness: the separator-freedom instantiated on a two-segment path. -/
theorem sanitizeFilenameNoSeparatorWitness :
    '/' ∉ (sanitizeFilename "https://example.com/a/b").toList :=
  sanitizeFilenameNoSeparator.1 "https://example.com/a/b"
